import Mathlib

/-!
Verification of the Atlassian OAuth integration client of this repository
(`src/lib/apis/atlassian/index.ts`, `src/lib/components/common/AtlassianConnection.svelte`,
the settings/connections page and the content-picker modal).

The TypeScript/Svelte code is shallowly embedded: every relevant function is translated to
an executable Lean definition.  JavaScript nullability (`null`/`undefined`) is `Option`,
JavaScript truthiness of string-valued expressions is made explicit, thrown exceptions
become `Option`/`Except` results, and the DOM/localStorage side effects of the UI handlers
become explicit state-transition records.  String manipulation is carried out on `List Char`
(the character sequence of a JavaScript string), wrapped into `String` at the boundaries.
-/

set_option maxRecDepth 8192

namespace Atlassian

/-- JavaScript truthiness of a possibly-absent string value
(`null`/`undefined` and the empty string are falsy). -/
def jsTruthy : Option String → Bool
  | none => false
  | some s => s ≠ ""

/-- JavaScript template-literal rendering of a possibly-absent string
(`${undefined}` prints as `"undefined"`). -/
def jsShow : Option String → String
  | none => "undefined"
  | some s => s

/-- The characters removed by JavaScript `String.prototype.trim` that can occur in the
strings handled here (ASCII whitespace and line terminators). -/
def isJsSpace (c : Char) : Bool :=
  c = ' ' || c = '\t' || c = '\n' || c = '\r' || c = '\x0b' || c = '\x0c'

/-- JavaScript `String.prototype.trim`: drop leading and trailing whitespace. -/
def jsTrim (s : String) : String :=
  ⟨((s.data.dropWhile isJsSpace).reverse.dropWhile isJsSpace).reverse⟩

/-! ## Atlassian Document Format (ADF) text extraction

Embeds `extractTextFromADF` from the content-picker modal (`selectItem`'s helper).  An ADF
value is a JSON object with an optional `type` string, an optional `text` string and an
optional `content` array; `none` at the top level stands for `null`/`undefined` input, and
a `content` field that is absent (or not an array, so that the `Array.isArray` guard
fails) is modelled as `none`. -/

inductive ADFNode : Type where
  | mk : Option String → Option String → Option (List ADFNode) → ADFNode

/-- The `type` field of an ADF node. -/
def ADFNode.ty : ADFNode → Option String
  | .mk t _ _ => t

/-- The `text` field of an ADF node. -/
def ADFNode.txt : ADFNode → Option String
  | .mk _ x _ => x

/-- The `content` field of an ADF node. -/
def ADFNode.ct : ADFNode → Option (List ADFNode)
  | .mk _ _ c => c

/-- Whether a node's `type` field is `paragraph` or `heading`. -/
def isParaOrHeading (t : Option String) : Bool :=
  t = some "paragraph" || t = some "heading"

mutual

/-- The `processNode` closure inside `extractTextFromADF`: append the node's own `text`
(a falsy `text`, absent or empty, contributes nothing), then walk the children in order,
appending a newline after every child when the node itself is a paragraph or heading. -/
def processNode : ADFNode → String
  | .mk _ x none => x.getD ""
  | .mk t x (some cs) => x.getD "" ++ processChildren (isParaOrHeading t) cs

/-- The `forEach` loop over a node's children; `nl` records whether the parent is a
paragraph/heading node, in which case `'\n'` is appended after each child. -/
def processChildren : Bool → List ADFNode → String
  | _, [] => ""
  | nl, c :: cs =>
      processNode c ++ (if nl then "\n" else "") ++ processChildren nl cs

end

/-- `extractTextFromADF`: returns `""` for `null`/`undefined` input or when the `content`
field is missing, otherwise runs `processNode` on the document and trims the result. -/
def extractTextFromADF : Option ADFNode → String
  | none => ""
  | some n =>
    match n.ct with
    | none => ""
    | some _ => jsTrim (processNode n)

mutual

/-- Modelled from the spec: the spec's reading of the extraction pass, inserting exactly
one newline after the whole child sequence of each paragraph/heading node (rather than
after each individual child). -/
def specProcessNode : ADFNode → String
  | .mk _ x none => x.getD ""
  | .mk t x (some cs) =>
      x.getD "" ++ specProcessChildren cs ++
        (if isParaOrHeading t then "\n" else "")

/-- Modelled from the spec: concatenation of the children in document order. -/
def specProcessChildren : List ADFNode → String
  | [] => ""
  | c :: cs => specProcessNode c ++ specProcessChildren cs

end

/-- Modelled from the spec: top-level extraction per the spec's wording. -/
def extractTextFromADF_spec : Option ADFNode → String
  | none => ""
  | some n =>
    match n.ct with
    | none => ""
    | some _ => jsTrim (specProcessNode n)

mutual

/-- Every paragraph/heading node carrying a `content` array has exactly one child.
On such documents the per-child newline of the code and the per-node newline of the
spec coincide. -/
def singleChildPH : ADFNode → Bool
  | .mk _ _ none => true
  | .mk t _ (some cs) =>
      (!isParaOrHeading t || cs.length = 1) && singleChildPHList cs

/-- `singleChildPH` for every node of a list. -/
def singleChildPHList : List ADFNode → Bool
  | [] => true
  | c :: cs => singleChildPH c && singleChildPHList cs

end


/-! ## The API client's shared error handling (`src/lib/apis/atlassian/index.ts`)

Every method of the client (`getAtlassianConnectionStatus`, `handleAtlassianCallback`,
`disconnectAtlassian`, `getAtlassianSites`, `searchJiraIssues`, `getConfluenceSpaces`,
`searchConfluencePages`, `getJiraIssue`, `getConfluenceContent`) wraps `fetch` in the
same pattern:

  `.then(res => { if (!res.ok) throw await res.json(); return res.json(); })`
  `.catch(err => { console.error(err); error = err.detail; return null; })`
  then `if (error) throw error; return res;`

The outcome of the single `fetch` is modelled by `FetchOutcome`; the value observed by
the caller is `Except String (Option β)` where `Except.error d` is a thrown detail
string and `Except.ok none` is a normal return of `null`. -/

/-- The parsed JSON body thrown for a non-2xx response: a structured error object whose
`detail` field may be absent. -/
structure ErrorBody where
  detail : Option String

/-- Outcome of the one `fetch` call a client method performs (no retries occur anywhere
in the client: each method runs exactly one `fetch`). -/
inductive FetchOutcome (β : Type) where
  | success (body : β)
  | httpError (body : ErrorBody)
  | networkError

/-- The shared result handling of every client method.  A non-2xx response throws the
parsed body into `.catch`, which stores `err.detail` into `error`; a network failure
(rejected `fetch`) reaches `.catch` with an exception object that has no `detail`
property, so `error` stays `null`-ish; finally `if (error) throw error; return res`
throws only a truthy (present and non-empty) detail string and otherwise returns `res`,
which is `null` whenever `.catch` ran. -/
def apiResult {β : Type} : FetchOutcome β → Except String (Option β)
  | .success b => .ok (some b)
  | .httpError e =>
    match e.detail with
    | some d => if d = "" then .ok none else .error d
    | none => .ok none
  | .networkError => .ok none

/-! ## The OAuth callback handlers

Two handlers process the `code`/`state`/`error` query parameters on return from
Atlassian.  `AtlassianConnectionComponent.handleOAuthCallback` lives in
`AtlassianConnection.svelte`; `ConnectionsPage.handleOAuthCallback` lives in the
settings/connections page.  Both are modelled as pure transition functions from the
query parameters, the current `localStorage` slot `atlassian_oauth_state` and the
outcome the backend exchange would have, to a record of their observable effects. -/

/-- Result of `handleAtlassianCallback` (the POST to `/atlassian/connection/callback`)
as observed by a handler: a thrown detail string or a success payload. -/
inductive ExchangeOutcome where
  | ok
  | failed (detail : String)

/-- Observable effects of one run of a callback handler. -/
structure CallbackRun where
  /-- Whether the token-exchange call `handleAtlassianCallback` was issued. -/
  exchangeCalled : Bool
  /-- The `{code, state}` arguments of the exchange call, when it was issued. -/
  exchangeArgs : Option (String × String)
  /-- The `atlassian_oauth_state` slot after the run. -/
  storedAfter : Option String
  /-- The user-visible error toast, if one was shown. -/
  errorToast : Option String
  /-- Whether the success toast was shown. -/
  successToast : Bool
  /-- Whether the URL's query parameters were stripped
  (`history.replaceState` / `goto(..., {replaceState: true})`). -/
  urlCleaned : Bool

namespace AtlassianConnectionComponent

/-- `handleOAuthCallback` of `AtlassianConnection.svelte`.  Reads `code`, `state` and
`error` from the URL.  On an upstream `error` parameter it toasts and cleans the URL.
Otherwise, when `code` and `state` are both present, it proceeds **directly** to the
backend exchange — the code explicitly skips comparing `state` against the stored
`atlassian_oauth_state` slot ("Skip state verification for now") and never touches the
slot. -/
def handleOAuthCallback (code state error stored : Option String)
    (exchange : String → String → ExchangeOutcome) : CallbackRun :=
  if jsTruthy error || jsTruthy code then
    if jsTruthy error then
      { exchangeCalled := false, exchangeArgs := none, storedAfter := stored
        errorToast := some "OAuth authentication failed", successToast := false
        urlCleaned := true }
    else if jsTruthy code && jsTruthy state then
      let c := code.getD ""
      let s := state.getD ""
      match exchange c s with
      | .ok =>
        { exchangeCalled := true, exchangeArgs := some (c, s), storedAfter := stored
          errorToast := none, successToast := true, urlCleaned := true }
      | .failed _ =>
        { exchangeCalled := true, exchangeArgs := some (c, s), storedAfter := stored
          errorToast := some "Failed to connect Atlassian account", successToast := false
          urlCleaned := true }
    else
      { exchangeCalled := false, exchangeArgs := none, storedAfter := stored
        errorToast := none, successToast := false, urlCleaned := false }
  else
    { exchangeCalled := false, exchangeArgs := none, storedAfter := stored
      errorToast := none, successToast := false, urlCleaned := false }

end AtlassianConnectionComponent

namespace ConnectionsPage

/-- `handleOAuthCallback` of the settings/connections page.  On an upstream `error`
parameter it toasts and cleans the URL.  When `code` and `state` are both present it
compares `state` against the stored `atlassian_oauth_state` (`state !== storedState`,
where a missing slot reads as `null` and never equals a present string); on mismatch it
shows the state-verification error and cleans the URL **without touching the slot**; on
a match it removes the slot and only then performs the backend exchange. -/
def handleOAuthCallback (code state error stored : Option String)
    (exchange : String → String → ExchangeOutcome) : CallbackRun :=
  if jsTruthy error then
    { exchangeCalled := false, exchangeArgs := none, storedAfter := stored
      errorToast := some "OAuth authentication failed", successToast := false
      urlCleaned := true }
  else if jsTruthy code && jsTruthy state then
    let c := code.getD ""
    let s := state.getD ""
    if stored ≠ some s then
      { exchangeCalled := false, exchangeArgs := none, storedAfter := stored
        errorToast := some "OAuth state verification failed", successToast := false
        urlCleaned := true }
    else
      match exchange c s with
      | .ok =>
        { exchangeCalled := true, exchangeArgs := some (c, s), storedAfter := none
          errorToast := none, successToast := true, urlCleaned := true }
      | .failed _ =>
        { exchangeCalled := true, exchangeArgs := some (c, s), storedAfter := none
          errorToast := some "Failed to connect Atlassian account", successToast := false
          urlCleaned := true }
  else
    { exchangeCalled := false, exchangeArgs := none, storedAfter := stored
      errorToast := none, successToast := false, urlCleaned := false }

end ConnectionsPage

/-! ## String transforms used by the content-picker modal

`String.prototype.replace(/pat/g, rep)` for a fixed non-empty literal pattern: leftmost,
non-overlapping replacement of every occurrence.  The recursion is driven by a fuel
argument equal to the input length so that the definition is structural (the fuel is
never exhausted for a non-empty pattern). -/

/-- One leftmost-scan pass of global literal replacement, structurally recursive on
fuel.  When the pattern matches at the current position the whole match is consumed. -/
def replaceAllAux (pat rep : List Char) : Nat → List Char → List Char
  | 0, s => s
  | _ + 1, [] => []
  | fuel + 1, c :: cs =>
    if pat.isPrefixOf (c :: cs) then
      rep ++ replaceAllAux pat rep fuel (List.drop (pat.length - 1) cs)
    else
      c :: replaceAllAux pat rep fuel cs

/-- JavaScript `s.replace(/pat/g, rep)` for a literal pattern `pat`. -/
def replaceAllStr (pat rep s : String) : String :=
  ⟨replaceAllAux pat.data rep.data s.data.length s.data⟩

/-- The suffix that follows the first `'>'` of a list, if any. -/
def afterGt (l : List Char) : Option (List Char) :=
  match l.dropWhile (fun c => !(c = '>')) with
  | '>' :: rest => some rest
  | _ => none

/-- `s.replace(/<[^>]*>/g, '')`: drop every maximal `<...>` run.  A `<` with no later
`>` cannot be part of a match and is kept verbatim (as is everything after it, since no
further match can start without a closing `>`). -/
def stripTagsAux : Nat → List Char → List Char
  | 0, s => s
  | _ + 1, [] => []
  | fuel + 1, c :: cs =>
    if c = '<' then
      match afterGt cs with
      | some rest => stripTagsAux fuel rest
      | none => c :: cs
    else
      c :: stripTagsAux fuel cs

/-- JavaScript `s.replace(/<[^>]*>/g, '')`. -/
def stripTagsStr (s : String) : String :=
  ⟨stripTagsAux s.data.length s.data⟩

/-- The entity-decoding chain applied by `selectItem` to Confluence body content, in
source order: `&nbsp;` → space, `&amp;` → `&`, `&lt;` → `<`, `&gt;` → `>`. -/
def decodeEntities (s : String) : String :=
  replaceAllStr "&gt;" ">"
    (replaceAllStr "&lt;" "<"
      (replaceAllStr "&amp;" "&"
        (replaceAllStr "&nbsp;" " " s)))

/-- The whole body transform of the Confluence branch of `selectItem`: strip tags, then
decode the four named entities. -/
def cleanConfluenceBody (s : String) : String :=
  decodeEntities (stripTagsStr s)

/-! ## `selectItem`: formatting a Jira issue for chat

The partial upstream records, with every field optional as delivered by the API. -/

/-- An upstream object carrying a `name` field (status, issue type, priority); the
`name` itself may be absent. -/
structure NamedField where
  name : Option String

/-- An upstream object carrying a `displayName` field (assignee). -/
structure AssigneeField where
  displayName : Option String

/-- The `description` field of a Jira issue: a plain string or an ADF document. -/
inductive JiraDescription where
  | str (s : String)
  | adf (node : ADFNode)

/-- The `fields` object of a fetched Jira issue; every member may be absent. -/
structure JiraFields where
  summary : Option String
  status : Option NamedField
  issuetype : Option NamedField
  assignee : Option AssigneeField
  priority : Option NamedField
  description : Option JiraDescription

/-- A fetched Jira issue. -/
structure JiraIssue where
  key : String
  fields : JiraFields

/-- JavaScript truthiness of the `description` value: `null`/`undefined` and the empty
string are falsy, any object (including an ADF document) is truthy. -/
def descTruthy : Option JiraDescription → Bool
  | none => false
  | some (.str s) => s ≠ ""
  | some (.adf _) => true

/-- The description text computed by the Jira branch of `selectItem`: defaults to
`"No description"`; a truthy string description is used as is; an object description is
run through `extractTextFromADF` only when its `content` field is truthy. -/
def jiraDescriptionText (d : Option JiraDescription) : String :=
  if descTruthy d then
    match d with
    | some (.str s) => s
    | some (.adf n) =>
      match n.ct with
      | some _ => extractTextFromADF (some n)
      | none => "No description"
    | none => "No description"
  else
    "No description"

/-- The Jira branch of `selectItem` building `content`.  The heading interpolates
`fullIssue.key` and `fullIssue.fields.summary`; then `fields.status.name` and
`fields.issuetype.name` are accessed unconditionally — reading `.name` off an absent
`status`/`issuetype` throws a `TypeError`, modelled as `none`; assignee and priority
lines are guarded by truthiness checks; the description section closes the content. -/
def selectItemJiraContent (issue : JiraIssue) : Option String :=
  match issue.fields.status, issue.fields.issuetype with
  | some st, some it =>
    some ("## [" ++ issue.key ++ "] " ++ jsShow issue.fields.summary ++ "\n\n"
      ++ "**Status:** " ++ jsShow st.name ++ "\n"
      ++ "**Type:** " ++ jsShow it.name ++ "\n"
      ++ (match issue.fields.assignee with
          | some a => "**Assignee:** " ++ jsShow a.displayName ++ "\n"
          | none => "")
      ++ (match issue.fields.priority with
          | some p => "**Priority:** " ++ jsShow p.name ++ "\n"
          | none => "")
      ++ "\n### Description\n" ++ jiraDescriptionText issue.fields.description)
  | _, _ => none

/-- Modelled from the spec (for comparison with `selectItemJiraContent`): heading with
issue key and summary, mandatory status and type lines, assignee and priority lines
only when those fields are present, then the description section. -/
def jiraRenderSpec (key summary statusName typeName : String)
    (assignee priority : Option String) (description : String) : String :=
  "## [" ++ key ++ "] " ++ summary ++ "\n\n"
    ++ "**Status:** " ++ statusName ++ "\n"
    ++ "**Type:** " ++ typeName ++ "\n"
    ++ (assignee.elim "" fun a => "**Assignee:** " ++ a ++ "\n")
    ++ (priority.elim "" fun p => "**Priority:** " ++ p ++ "\n")
    ++ "\n### Description\n" ++ description

/-! ## `selectItem`: formatting a Confluence page for chat -/

/-- The `body.storage` object of a v1 Confluence response. -/
structure ConfStorage where
  value : Option String

/-- The `body` object of a Confluence response (v1 `storage.value` or v2 `value`). -/
structure ConfBody where
  storage : Option ConfStorage
  value : Option String

/-- The `version` object of a Confluence response. -/
structure ConfVersion where
  when : Option String
  createdAt : Option String

/-- The `space` object of a Confluence response. -/
structure ConfSpace where
  name : Option String
  key : Option String

/-- A fetched Confluence page (the fields `selectItem` reads). -/
structure ConfPage where
  id : String
  title : Option String
  space : Option ConfSpace
  version : Option ConfVersion
  body : Option ConfBody

/-- `bodyContent` as computed by `selectItem`: v1 `body.storage.value` when `storage`
and its `value` are truthy, else v2 `body.value` when truthy, else empty. -/
def confBodyContent (p : ConfPage) : String :=
  match p.body with
  | none => ""
  | some b =>
    match b.storage with
    | some st =>
      if jsTruthy st.value then st.value.getD ""
      else if jsTruthy b.value then b.value.getD "" else ""
    | none =>
      if jsTruthy b.value then b.value.getD "" else ""

/-- JavaScript `a || b` over two optional strings, as interpolated into a template
literal (`undefined` prints as `"undefined"`). -/
def jsOrShow (a b : Option String) : String :=
  if jsTruthy a then a.getD "" else jsShow b

/-- The Confluence branch of `selectItem` building `content`: title heading, optional
space line, optional last-updated line, then the transformed body or the fallback
notice.  `fmtDate` stands for `new Date(d).toLocaleDateString()`, which is
locale-dependent and passed in abstractly. -/
def selectItemConfluenceContent (fmtDate : String → String) (p : ConfPage) : String :=
  "## " ++ jsShow p.title ++ "\n\n"
    ++ (match p.space with
        | some sp => "**Space:** " ++ jsOrShow sp.name sp.key ++ "\n"
        | none => "")
    ++ (match p.version with
        | some v =>
          let updateDate := if jsTruthy v.when then v.when else v.createdAt
          if jsTruthy updateDate then
            "**Last Updated:** " ++ fmtDate (updateDate.getD "") ++ "\n\n"
          else ""
        | none => "")
    ++ (if confBodyContent p ≠ "" then cleanConfluenceBody (confBodyContent p)
        else "No content available")

/-! ## The picker's search flow (`performSearch`, `loadConfluenceSpaces`) -/

/-- Which content type is selected in the picker. -/
inductive SearchType where
  | jira
  | confluence
deriving DecidableEq

/-- The parsed body of a search (or space-listing) response: an optional soft-error
marker plus the two possible result arrays. -/
structure SearchResponse (α : Type) where
  error : Option String
  issues : Option (List α)
  results : Option (List α)

/-- The picker state touched by `performSearch`. -/
structure PickerSearchState (α : Type) where
  searchResults : List α
  noConfluenceAccess : Bool
  loading : Bool
  toasts : List String
deriving DecidableEq

/-- `performSearch`.  An empty (after trim) query or no selected site returns without
any change.  Otherwise results are cleared, the search call runs (its outcome is the
`resp` argument; `Except.error` is a thrown failure), and:
Jira — results become `result.issues || []` with no soft-error check;
Confluence — `result.error === 'no_access'` sets the no-access flag and leaves results
empty, any other body clears the flag and takes `result.results || []`; a thrown
failure toasts "Search failed".  `finally` clears `loading`. -/
def performSearch {α σ : Type} (ty : SearchType) (searchQuery : String)
    (selectedSite : Option σ) (resp : Except Unit (SearchResponse α))
    (st : PickerSearchState α) : PickerSearchState α :=
  if jsTrim searchQuery = "" || selectedSite.isNone then st
  else
    let st := { st with loading := true, searchResults := [] }
    let st :=
      match ty, resp with
      | .jira, .ok r => { st with searchResults := r.issues.getD [] }
      | .confluence, .ok r =>
        if r.error = some "no_access" then
          { st with noConfluenceAccess := true, searchResults := [] }
        else
          { st with noConfluenceAccess := false, searchResults := r.results.getD [] }
      | _, .error _ => { st with toasts := st.toasts ++ ["Search failed"] }
    { st with loading := false }

/-- The picker state touched by `loadConfluenceSpaces`. -/
structure SpacesState (α : Type) where
  confluenceSpaces : List α
  selectedSpace : Option α
  loadingSpaces : Bool
  toasts : List String
deriving DecidableEq

/-- `loadConfluenceSpaces`.  Without a selected site, or with Jira selected, it returns
unchanged.  Otherwise the space list is cleared, the listing call runs and a
`no_access` body (or a thrown failure) degrades to an empty space list with no
selected space and no error toast; any other body takes `result.results || []`. -/
def loadConfluenceSpaces {α σ : Type} (ty : SearchType) (selectedSite : Option σ)
    (resp : Except Unit (SearchResponse α)) (st : SpacesState α) : SpacesState α :=
  if selectedSite.isNone || ty ≠ .confluence then st
  else
    let st : SpacesState α :=
      { st with loadingSpaces := true, confluenceSpaces := [], selectedSpace := none }
    let st : SpacesState α :=
      match resp with
      | .ok r =>
        if r.error = some "no_access" then
          { st with confluenceSpaces := [], selectedSpace := none }
        else
          { st with confluenceSpaces := r.results.getD [], selectedSpace := none }
      | .error _ => { st with confluenceSpaces := [], selectedSpace := none }
    { st with loadingSpaces := false }

/-! ## `generateAtlassianOAuthURL` and `URLSearchParams`

`URLSearchParams.toString()` serialises the parameters in insertion order as
`application/x-www-form-urlencoded`: each key and value is encoded byte-wise over its
UTF-8 encoding — `0x2A 0x2D 0x2E 0x5F`, ASCII digits and letters stay literal, space
becomes `'+'`, every other byte becomes `%XX` with uppercase hex — and the pairs are
joined as `k=v&k=v`. -/

/-- The UTF-8 encoding of one character (code points are below `0x110000`). -/
def utf8Bytes (c : Char) : List Nat :=
  if c.toNat < 0x80 then [c.toNat]
  else if c.toNat < 0x800 then
    [0xC0 + c.toNat / 0x40, 0x80 + c.toNat % 0x40]
  else if c.toNat < 0x10000 then
    [0xE0 + c.toNat / 0x1000, 0x80 + (c.toNat / 0x40) % 0x40, 0x80 + c.toNat % 0x40]
  else
    [0xF0 + c.toNat / 0x40000, 0x80 + (c.toNat / 0x1000) % 0x40,
      0x80 + (c.toNat / 0x40) % 0x40, 0x80 + c.toNat % 0x40]

/-- The UTF-8 encoding of a whole string. -/
def utf8Encode (s : String) : List Nat :=
  s.data.flatMap utf8Bytes

/-- Bytes serialised literally by `application/x-www-form-urlencoded`:
`0-9`, `A-Z`, `a-z` and `* - . _`. -/
def isFormUnreserved (b : Nat) : Bool :=
  (0x30 ≤ b && b ≤ 0x39) || (0x41 ≤ b && b ≤ 0x5A) || (0x61 ≤ b && b ≤ 0x7A) ||
    b = 0x2A || b = 0x2D || b = 0x2E || b = 0x5F

/-- Uppercase hex digit for a value below 16. -/
def hexDigitU (n : Nat) : Char :=
  if n < 10 then Char.ofNat (0x30 + n) else Char.ofNat (0x37 + n)

/-- The `application/x-www-form-urlencoded` serialisation of one byte. -/
def encByte (b : Nat) : List Char :=
  if b = 0x20 then ['+']
  else if isFormUnreserved b then [Char.ofNat b]
  else ['%', hexDigitU (b / 16), hexDigitU (b % 16)]

/-- Form-urlencoding of a string (used by `URLSearchParams` for keys and values). -/
def formEncode (s : String) : String :=
  ⟨(utf8Encode s).flatMap encByte⟩

/-- `URLSearchParams.toString()`: the pairs in insertion order, keys and values
form-urlencoded, joined with `&`. -/
def urlSearchParamsToString : List (String × String) → String
  | [] => ""
  | [(k, v)] => formEncode k ++ "=" ++ formEncode v
  | (k, v) :: rest =>
      formEncode k ++ "=" ++ formEncode v ++ "&" ++ urlSearchParamsToString rest

/-- `generateAtlassianOAuthURL`: builds `URLSearchParams` with the seven parameters in
source order and prepends the fixed authorize endpoint.  A pure function of its four
arguments. -/
def generateAtlassianOAuthURL (clientId redirectUri scope state : String) : String :=
  "https://auth.atlassian.com/authorize?" ++
    urlSearchParamsToString
      [("audience", "api.atlassian.com"),
       ("client_id", clientId),
       ("scope", scope),
       ("redirect_uri", redirectUri),
       ("state", state),
       ("response_type", "code"),
       ("prompt", "consent")]

/-! Decoding, used to state that the generated query string carries exactly the intended
parameters: split on `&`, split each group at its first `=`, percent-decode. -/

/-- Numeric value of a hex digit character (`0-9`, `A-F`, `a-f`). -/
def hexVal (c : Char) : Nat :=
  if c.toNat ≤ 0x39 then c.toNat - 0x30
  else if c.toNat ≤ 0x46 then c.toNat - 0x37
  else c.toNat - 0x57

mutual

/-- Percent-decoding of a form-urlencoded component back to bytes (`'+'` is space). -/
def percentDecode : List Char → List Nat
  | [] => []
  | c :: cs =>
    if c = '+' then 0x20 :: percentDecode cs
    else if c = '%' then percentDecodePct cs
    else c.toNat :: percentDecode cs

/-- Reads the two hex digits after a `'%'`. -/
def percentDecodePct : List Char → List Nat
  | h1 :: h2 :: cs2 => (hexVal h1 * 16 + hexVal h2) :: percentDecode cs2
  | _ => []

end

mutual

/-- UTF-8 decoding of a byte sequence (as produced by `utf8Encode`). -/
def utf8Decode : List Nat → List Char
  | [] => []
  | b :: bs =>
    if b < 0x80 then Char.ofNat b :: utf8Decode bs
    else if b < 0xE0 then utf8DecodeTail2 b bs
    else if b < 0xF0 then utf8DecodeTail3 b bs
    else utf8DecodeTail4 b bs

/-- Continuation byte of a two-byte sequence. -/
def utf8DecodeTail2 (b : Nat) : List Nat → List Char
  | b1 :: bs2 => Char.ofNat ((b - 0xC0) * 0x40 + (b1 - 0x80)) :: utf8Decode bs2
  | [] => []

/-- Continuation bytes of a three-byte sequence. -/
def utf8DecodeTail3 (b : Nat) : List Nat → List Char
  | b1 :: b2 :: bs2 =>
      Char.ofNat ((b - 0xE0) * 0x1000 + (b1 - 0x80) * 0x40 + (b2 - 0x80)) ::
        utf8Decode bs2
  | _ => []

/-- Continuation bytes of a four-byte sequence. -/
def utf8DecodeTail4 (b : Nat) : List Nat → List Char
  | b1 :: b2 :: b3 :: bs2 =>
      Char.ofNat ((b - 0xF0) * 0x40000 + (b1 - 0x80) * 0x1000 +
        (b2 - 0x80) * 0x40 + (b3 - 0x80)) :: utf8Decode bs2
  | _ => []

end

/-- Full decoding of one form-urlencoded component. -/
def formDecode (s : String) : String :=
  ⟨utf8Decode (percentDecode s.data)⟩

/-- Split a character list at every occurrence of `sep`. -/
def splitChar (sep : Char) : List Char → List (List Char)
  | [] => [[]]
  | c :: cs =>
    if c = sep then [] :: splitChar sep cs
    else
      match splitChar sep cs with
      | [] => [[c]]
      | g :: gs => (c :: g) :: gs

/-- Parse a query string into decoded key/value pairs: split on `&`, split each group
at its first `=`, decode both sides. -/
def parseQuery (s : String) : List (String × String) :=
  (splitChar '&' s.data).map fun g =>
    (formDecode ⟨g.takeWhile (fun c => !(c = '='))⟩,
     formDecode ⟨(g.dropWhile (fun c => !(c = '='))).drop 1⟩)

/-! ## `generateOAuthState` and `handleConnect`

`generateOAuthState` fills a `Uint8Array(32)` from `crypto.getRandomValues` and hex
encodes it with `byte.toString(16).padStart(2, '0')`.  The randomness source is
modelled by passing the 32 bytes (each below 256) as an argument. -/

/-- JavaScript `n.toString(16)`: lowercase hexadecimal digits, no padding. -/
def jsToString16 (n : Nat) : String :=
  ⟨Nat.toDigits 16 n⟩

/-- JavaScript `s.padStart(2, '0')`. -/
def padStart2 (s : String) : String :=
  if s.length < 2 then ⟨List.replicate (2 - s.length) '0' ++ s.data⟩ else s

/-- `byte.toString(16).padStart(2, '0')` for one byte. -/
def byteToHexJS (b : Nat) : String :=
  padStart2 (jsToString16 b)

/-- `generateOAuthState` applied to the 32 bytes delivered by
`crypto.getRandomValues`: hex encode each byte and join. -/
def generateOAuthState (bytes : List Nat) : String :=
  ⟨(bytes.map fun b => (byteToHexJS b).data).flatten⟩

/-- Inverse of the hex join: read consecutive pairs of hex digits back into bytes. -/
def hexPairsToBytes : List Char → List Nat
  | c1 :: c2 :: rest => (hexVal c1 * 16 + hexVal c2) :: hexPairsToBytes rest
  | _ => []

/-- Effects of the connection panel, in execution order. -/
inductive PanelEffect where
  | toastError (msg : String)
  | setItem (key value : String)
  | navigate (url : String)
deriving DecidableEq

/-- `handleConnect` of `AtlassianConnection.svelte`: with a falsy client id or redirect
URI it only shows the configuration error; otherwise it generates the state, stores it
under `atlassian_oauth_state`, and then navigates to the authorization URL. -/
def handleConnect (clientId redirectUri scope : String) (randomBytes : List Nat) :
    List PanelEffect :=
  if clientId = "" || redirectUri = "" then
    [.toastError "Atlassian integration is not properly configured"]
  else
    let state := generateOAuthState randomBytes
    [.setItem "atlassian_oauth_state" state,
     .navigate (generateAtlassianOAuthURL clientId redirectUri scope state)]

/-! ## Lemmas -/

theorem processNode_eq_spec_of_singleChild :
    ∀ n : ADFNode, singleChildPH n = true → processNode n = specProcessNode n := by
  have main : ∀ n : ADFNode,
      (singleChildPH n = true → processNode n = specProcessNode n) := by
    intro n
    induction n using processNode.induct
      (motive_2 := fun nl cs =>
        singleChildPHList cs = true →
          (nl = false → processChildren nl cs = specProcessChildren cs) ∧
          (nl = true → ∀ c, cs = [c] →
            processChildren nl cs = specProcessChildren cs ++ "\n")) with
    | case1 t x =>
      intro _
      simp [processNode, specProcessNode]
    | case2 t x cs ih =>
      intro h
      simp only [singleChildPH, Bool.and_eq_true] at h
      rcases h with ⟨hlen, hall⟩
      rcases ih hall with ⟨hfalse, htrue⟩
      by_cases hph : isParaOrHeading t = true
      · have h1 : cs.length = 1 := by simpa [hph] using hlen
        match cs, h1 with
        | [c], _ =>
          have ht := htrue hph c rfl
          rw [hph] at ht
          simp only [processNode, specProcessNode, hph, if_pos rfl]
          rw [ht]
          simp [String.append_assoc]
      · have hnl : isParaOrHeading t = false := by simpa using hph
        have hf := hfalse hnl
        rw [hnl] at hf
        simp only [processNode, specProcessNode, hnl]
        rw [hf]
        simp [String.append_assoc, String.append_empty]
    | case3 nl =>
      exact ⟨fun _ => by simp [processChildren, specProcessChildren],
        fun _ c h => absurd h (by simp)⟩
    | case4 nl c cs ihc ihcs =>
      rename_i h
      simp only [singleChildPHList, Bool.and_eq_true] at h
      rcases h with ⟨hc, hcs⟩
      constructor
      · intro hnl
        subst hnl
        simp only [processChildren, specProcessChildren]
        rw [ihc hc, (ihcs hcs).1 rfl]
        simp [String.append_assoc, String.append_empty]
      · intro hnl c' heq
        cases heq
        subst hnl
        simp only [processChildren, specProcessChildren]
        rw [ihc hc]
        simp [String.append_assoc, String.append_empty]
  exact main

/-! ## Roundtrip lemmas for the form-urlencoding -/

theorem char_toNat_lt_size (c : Char) : c.toNat < 0x110000 := by
  have h := c.valid
  have he : c.toNat = c.val.toNat := rfl
  rcases h with h | h <;> omega

theorem toNat_ofNat_byte : ∀ b : Fin 256, (Char.ofNat b.val).toNat = b.val := by decide

theorem toNat_ofNat_of_lt {b : Nat} (h : b < 256) : (Char.ofNat b).toNat = b :=
  toNat_ofNat_byte ⟨b, h⟩

theorem hexVal_hexDigitU_fin : ∀ d : Fin 16, hexVal (hexDigitU d.val) = d.val := by decide

theorem hexVal_hexDigitU {d : Nat} (h : d < 16) : hexVal (hexDigitU d) = d :=
  hexVal_hexDigitU_fin ⟨d, h⟩

theorem utf8Bytes_lt (c : Char) : ∀ b ∈ utf8Bytes c, b < 256 := by
  have hc := char_toNat_lt_size c
  intro b hb
  simp only [utf8Bytes] at hb
  split_ifs at hb <;> simp only [List.mem_cons, List.not_mem_nil, or_false] at hb <;> omega

theorem utf8Decode_utf8Bytes (c : Char) (bs : List Nat) :
    utf8Decode (utf8Bytes c ++ bs) = c :: utf8Decode bs := by
  have hc := char_toNat_lt_size c
  have hofnat : Char.ofNat c.toNat = c := Char.ofNat_toNat c
  simp only [utf8Bytes]
  by_cases h1 : c.toNat < 0x80
  · simp only [if_pos h1, List.cons_append, List.nil_append]
    rw [utf8Decode, if_pos h1, hofnat]
  · by_cases h2 : c.toNat < 0x800
    · simp only [if_neg h1, if_pos h2, List.cons_append, List.nil_append]
      rw [utf8Decode, if_neg (by omega), if_pos (by omega), utf8DecodeTail2]
      have harg : (0xC0 + c.toNat / 0x40 - 0xC0) * 0x40 + (0x80 + c.toNat % 0x40 - 0x80)
          = c.toNat := by omega
      rw [harg, hofnat]
    · by_cases h3 : c.toNat < 0x10000
      · simp only [if_neg h1, if_neg h2, if_pos h3, List.cons_append, List.nil_append]
        rw [utf8Decode, if_neg (by omega), if_neg (by omega), if_pos (by omega),
          utf8DecodeTail3]
        have harg : (0xE0 + c.toNat / 0x1000 - 0xE0) * 0x1000 +
            (0x80 + c.toNat / 0x40 % 0x40 - 0x80) * 0x40 +
            (0x80 + c.toNat % 0x40 - 0x80) = c.toNat := by omega
        rw [harg, hofnat]
      · simp only [if_neg h1, if_neg h2, if_neg h3, List.cons_append, List.nil_append]
        rw [utf8Decode, if_neg (by omega), if_neg (by omega), if_neg (by omega),
          utf8DecodeTail4]
        have harg : (0xF0 + c.toNat / 0x40000 - 0xF0) * 0x40000 +
            (0x80 + c.toNat / 0x1000 % 0x40 - 0x80) * 0x1000 +
            (0x80 + c.toNat / 0x40 % 0x40 - 0x80) * 0x40 +
            (0x80 + c.toNat % 0x40 - 0x80) = c.toNat := by omega
        rw [harg, hofnat]

theorem utf8Decode_flatMap (l : List Char) : utf8Decode (l.flatMap utf8Bytes) = l := by
  induction l with
  | nil => simp [utf8Decode]
  | cons c cs ih => rw [List.flatMap_cons, utf8Decode_utf8Bytes, ih]

theorem isFormUnreserved_mem {b : Nat} (h : isFormUnreserved b = true) :
    b ≠ 0x20 ∧ b ≠ 0x25 ∧ b ≠ 0x2B ∧ b ≠ 0x26 ∧ b ≠ 0x3D ∧ b < 256 := by
  simp only [isFormUnreserved, Bool.or_eq_true, Bool.and_eq_true, decide_eq_true_eq] at h
  omega

theorem percentDecode_encBytes (bs : List Nat) (h : ∀ b ∈ bs, b < 256) :
    percentDecode (bs.flatMap encByte) = bs := by
  induction bs with
  | nil => simp [percentDecode]
  | cons b rest ih =>
    have hb : b < 256 := h b (by simp)
    have hrest : percentDecode (rest.flatMap encByte) = rest :=
      ih fun x hx => h x (by simp [hx])
    rw [List.flatMap_cons, encByte]
    by_cases hsp : b = 0x20
    · rw [if_pos hsp]
      simp only [List.cons_append, List.nil_append]
      rw [percentDecode, if_pos rfl, hrest, hsp]
    · by_cases hun : isFormUnreserved b = true
      · obtain ⟨_, h25, h2B, _, _, _⟩ := isFormUnreserved_mem hun
        have htn : (Char.ofNat b).toNat = b := toNat_ofNat_of_lt hb
        have hplus : ¬(Char.ofNat b = '+') := by
          intro hEq
          have : (Char.ofNat b).toNat = 0x2B := by rw [hEq]; rfl
          omega
        have hpct : ¬(Char.ofNat b = '%') := by
          intro hEq
          have : (Char.ofNat b).toNat = 0x25 := by rw [hEq]; rfl
          omega
        rw [if_neg hsp, if_pos hun]
        simp only [List.cons_append, List.nil_append]
        rw [percentDecode, if_neg hplus, if_neg hpct, htn, hrest]
      · rw [if_neg hsp, if_neg hun]
        simp only [List.cons_append, List.nil_append]
        rw [percentDecode, if_neg (by decide), if_pos rfl, percentDecodePct]
        rw [hexVal_hexDigitU (by omega), hexVal_hexDigitU (by omega), hrest]
        congr 1
        omega

theorem formDecode_formEncode (s : String) : formDecode (formEncode s) = s := by
  rcases s with ⟨l⟩
  have hlt : ∀ b ∈ utf8Encode ⟨l⟩, b < 256 := by
    intro b hb
    simp only [utf8Encode, List.mem_flatMap] at hb
    obtain ⟨c, _, hc⟩ := hb
    exact utf8Bytes_lt c b hc
  show formDecode ⟨(utf8Encode ⟨l⟩).flatMap encByte⟩ = ⟨l⟩
  rw [formDecode]
  rw [show (String.mk ((utf8Encode ⟨l⟩).flatMap encByte)).data
      = (utf8Encode ⟨l⟩).flatMap encByte from rfl]
  rw [percentDecode_encBytes _ hlt]
  show String.mk (utf8Decode (l.flatMap utf8Bytes)) = ⟨l⟩
  rw [utf8Decode_flatMap]

theorem hexDigitU_ne_sep : ∀ d : Fin 16,
    hexDigitU d.val ≠ '&' ∧ hexDigitU d.val ≠ '=' := by decide

theorem encByte_ne_sep {b : Nat} (hb : b < 256) :
    ∀ c ∈ encByte b, c ≠ '&' ∧ c ≠ '=' := by
  intro c hc
  rw [encByte] at hc
  by_cases hsp : b = 0x20
  · rw [if_pos hsp] at hc
    simp only [List.mem_singleton] at hc
    subst hc
    exact ⟨by decide, by decide⟩
  · by_cases hun : isFormUnreserved b = true
    · rw [if_neg hsp, if_pos hun] at hc
      simp only [List.mem_singleton] at hc
      subst hc
      obtain ⟨_, _, _, h26, h3D, _⟩ := isFormUnreserved_mem hun
      have htn : (Char.ofNat b).toNat = b := toNat_ofNat_of_lt hb
      constructor
      · intro hEq
        have : (Char.ofNat b).toNat = 0x26 := by rw [hEq]; rfl
        omega
      · intro hEq
        have : (Char.ofNat b).toNat = 0x3D := by rw [hEq]; rfl
        omega
    · rw [if_neg hsp, if_neg hun] at hc
      simp only [List.mem_cons, List.not_mem_nil, or_false] at hc
      rcases hc with rfl | rfl | rfl
      · exact ⟨by decide, by decide⟩
      · exact hexDigitU_ne_sep ⟨b / 16, by omega⟩
      · exact hexDigitU_ne_sep ⟨b % 16, by omega⟩

theorem formEncode_ne_sep (s : String) :
    ∀ c ∈ (formEncode s).data, c ≠ '&' ∧ c ≠ '=' := by
  intro c hc
  have : c ∈ (utf8Encode s).flatMap encByte := hc
  simp only [List.mem_flatMap] at this
  obtain ⟨b, hb, hcb⟩ := this
  have hblt : b < 256 := by
    simp only [utf8Encode, List.mem_flatMap] at hb
    obtain ⟨ch, _, hbc⟩ := hb
    exact utf8Bytes_lt ch b hbc
  exact encByte_ne_sep hblt c hcb

theorem splitChar_not_mem {sep : Char} {l : List Char} (h : sep ∉ l) :
    splitChar sep l = [l] := by
  induction l with
  | nil => rfl
  | cons c cs ih =>
    have hcsep : ¬(c = sep) := fun hEq => h (hEq ▸ List.mem_cons_self c cs)
    have hcs : sep ∉ cs := fun hmem => h (List.mem_cons_of_mem c hmem)
    rw [splitChar, if_neg hcsep, ih hcs]

theorem splitChar_append {sep : Char} {a rest : List Char} (h : sep ∉ a) :
    splitChar sep (a ++ sep :: rest) = a :: splitChar sep rest := by
  induction a with
  | nil =>
    simp only [List.nil_append]
    rw [splitChar, if_pos rfl]
  | cons c a2 ih =>
    have hcsep : ¬(c = sep) := fun hEq => h (hEq ▸ List.mem_cons_self c a2)
    have ha2 : sep ∉ a2 := fun hmem => h (List.mem_cons_of_mem c hmem)
    simp only [List.cons_append]
    rw [splitChar, if_neg hcsep, ih ha2]

theorem takeWhile_until_eq {k v : List Char} (h : '=' ∉ k) :
    (k ++ '=' :: v).takeWhile (fun c => !(c = '=')) = k := by
  induction k with
  | nil => simp [List.takeWhile]
  | cons c k2 ih =>
    have hcne : ¬(c = '=') := fun hEq => h (hEq ▸ List.mem_cons_self c k2)
    have hk2 : '=' ∉ k2 := fun hmem => h (List.mem_cons_of_mem c hmem)
    simp only [List.cons_append, List.takeWhile_cons]
    rw [if_pos (by simp [hcne]), ih hk2]

theorem dropWhile_until_eq {k v : List Char} (h : '=' ∉ k) :
    ((k ++ '=' :: v).dropWhile (fun c => !(c = '='))).drop 1 = v := by
  induction k with
  | nil => simp [List.dropWhile]
  | cons c k2 ih =>
    have hcne : ¬(c = '=') := fun hEq => h (hEq ▸ List.mem_cons_self c k2)
    have hk2 : '=' ∉ k2 := fun hmem => h (List.mem_cons_of_mem c hmem)
    simp only [List.cons_append, List.dropWhile_cons]
    rw [if_pos (by simp [hcne])]
    exact ih hk2

/-- One serialised pair parses back to the original key and value. -/
theorem parsePair_roundtrip (k v : String) :
    (formDecode ⟨((formEncode k).data ++ '=' :: (formEncode v).data).takeWhile
        (fun c => !(c = '='))⟩,
     formDecode ⟨(((formEncode k).data ++ '=' :: (formEncode v).data).dropWhile
        (fun c => !(c = '='))).drop 1⟩) = (k, v) := by
  have hk : '=' ∉ (formEncode k).data := fun hmem =>
    (formEncode_ne_sep k _ hmem).2 rfl
  rw [takeWhile_until_eq hk, dropWhile_until_eq hk]
  have h1 : (String.mk (formEncode k).data) = formEncode k := rfl
  have h2 : (String.mk (formEncode v).data) = formEncode v := rfl
  rw [h1, h2, formDecode_formEncode, formDecode_formEncode]

/-- `parseQuery` inverts `urlSearchParamsToString` on any non-empty parameter list. -/
theorem parseQuery_urlSearchParamsToString :
    ∀ ps : List (String × String), ps ≠ [] →
      parseQuery (urlSearchParamsToString ps) = ps := by
  intro ps
  induction ps with
  | nil => intro h; exact absurd rfl h
  | cons p rest ih =>
    intro _
    rcases p with ⟨k, v⟩
    rcases hrest : rest with _ | ⟨q, rest2⟩
    · rw [urlSearchParamsToString]
      rw [parseQuery]
      have hdata : (formEncode k ++ "=" ++ formEncode v).data
          = (formEncode k).data ++ '=' :: (formEncode v).data := by
        rw [String.data_append, String.data_append]
        rw [(by decide : ("=" : String).data = ['='])]
        rw [List.append_assoc]
        rfl
      rw [hdata]
      have hamp : '&' ∉ (formEncode k).data ++ '=' :: (formEncode v).data := by
        intro hmem
        rcases List.mem_append.mp hmem with hm | hm
        · exact (formEncode_ne_sep k _ hm).1 rfl
        · rcases List.mem_cons.mp hm with hm2 | hm2
          · exact absurd hm2.symm (by decide)
          · exact (formEncode_ne_sep v _ hm2).1 rfl
      rw [splitChar_not_mem hamp]
      simp only [List.map_cons, List.map_nil]
      rw [parsePair_roundtrip k v]
    · rw [← hrest]
      have hne2 : rest ≠ [] := by rw [hrest]; exact List.cons_ne_nil q rest2
      rw [show urlSearchParamsToString ((k, v) :: rest)
          = formEncode k ++ "=" ++ formEncode v ++ "&" ++ urlSearchParamsToString rest by
        rw [hrest]; rfl]
      rw [parseQuery]
      have hdata : (formEncode k ++ "=" ++ formEncode v ++ "&"
            ++ urlSearchParamsToString rest).data
          = ((formEncode k).data ++ '=' :: (formEncode v).data)
            ++ '&' :: (urlSearchParamsToString rest).data := by
        simp only [String.data_append]
        simp [List.append_assoc]
      rw [hdata]
      have hamp : '&' ∉ (formEncode k).data ++ '=' :: (formEncode v).data := by
        intro hmem
        rcases List.mem_append.mp hmem with hm | hm
        · exact (formEncode_ne_sep k _ hm).1 rfl
        · rcases List.mem_cons.mp hm with hm2 | hm2
          · exact absurd hm2.symm (by decide)
          · exact (formEncode_ne_sep v _ hm2).1 rfl
      rw [splitChar_append hamp]
      rw [List.map_cons]
      rw [parsePair_roundtrip k v]
      have hrec := ih hne2
      rw [parseQuery] at hrec
      rw [hrec]

/-! ## Properties of the hex encoding used by `generateOAuthState` -/

theorem byteToHexJS_byte : ∀ b : Fin 256,
    (byteToHexJS b.val).data.length = 2 ∧
    hexPairsToBytes (byteToHexJS b.val).data = [b.val] ∧
    ∀ c ∈ (byteToHexJS b.val).data, c ∈ ("0123456789abcdef").data := by decide

theorem hexJoin_facts (bytes : List Nat) (h : ∀ b ∈ bytes, b < 256) :
    ((bytes.map fun b => (byteToHexJS b).data).flatten).length = 2 * bytes.length ∧
    hexPairsToBytes ((bytes.map fun b => (byteToHexJS b).data).flatten) = bytes ∧
    ∀ c ∈ (bytes.map fun b => (byteToHexJS b).data).flatten,
      c ∈ ("0123456789abcdef").data := by
  induction bytes with
  | nil => exact ⟨rfl, rfl, fun c hc => absurd hc (by simp)⟩
  | cons b rest ih =>
    have hb : b < 256 := h b (by simp)
    obtain ⟨ihlen, ihdec, ihhex⟩ := ih fun x hx => h x (by simp [hx])
    obtain ⟨hlen2, hdec2, hhex2⟩ := byteToHexJS_byte ⟨b, hb⟩
    obtain ⟨c1, c2, hd⟩ := List.length_eq_two.mp hlen2
    refine ⟨?_, ?_, ?_⟩
    · simp only [List.map_cons, List.flatten_cons, List.length_append, hd]
      simp only [List.length_cons, List.length_nil]
      omega
    · simp only [List.map_cons, List.flatten_cons, hd, List.cons_append, List.nil_append]
      rw [hexPairsToBytes]
      rw [hd] at hdec2
      rw [hexPairsToBytes] at hdec2
      simp only [List.cons.injEq] at hdec2
      rw [hdec2.1, ihdec]
    · intro c hc
      simp only [List.map_cons, List.flatten_cons, List.mem_append, hd] at hc
      rcases hc with hc | hc
      · exact hhex2 c (hd ▸ hc)
      · exact ihhex c hc

theorem generateOAuthState_byte_facts (bytes : List Nat) (h : ∀ b ∈ bytes, b < 256) :
    (generateOAuthState bytes).data.length = 2 * bytes.length ∧
    hexPairsToBytes (generateOAuthState bytes).data = bytes ∧
    ∀ c ∈ (generateOAuthState bytes).data, c ∈ ("0123456789abcdef").data :=
  hexJoin_facts bytes h

/-! ## Claim theorems -/

/-- C1: on a callback return carrying `code = "C"` and `state = "S2"` while the stored
OAuth state is `"S"` (a mismatch), the `AtlassianConnection.svelte` handler still issues
the token-exchange call `handleAtlassianCallback` with `{code: "C", state: "S2"}`,
surfaces no state-verification error, and leaves the stored slot untouched — the claimed
guard does not exist in that handler (its source skips the comparison).  The
settings-page handler on the same input behaves as the claim demands: no exchange call,
a state-verification error, a cleaned URL. -/
theorem componentCallback_exchanges_despite_state_mismatch :
    (AtlassianConnectionComponent.handleOAuthCallback (some "C") (some "S2") none
        (some "S") (fun _ _ => .ok)).exchangeCalled = true ∧
    (AtlassianConnectionComponent.handleOAuthCallback (some "C") (some "S2") none
        (some "S") (fun _ _ => .ok)).exchangeArgs = some ("C", "S2") ∧
    (AtlassianConnectionComponent.handleOAuthCallback (some "C") (some "S2") none
        (some "S") (fun _ _ => .ok)).errorToast = none ∧
    (some "S" : Option String) ≠ some "S2" ∧
    (ConnectionsPage.handleOAuthCallback (some "C") (some "S2") none (some "S")
        (fun _ _ => .ok)).exchangeCalled = false ∧
    (ConnectionsPage.handleOAuthCallback (some "C") (some "S2") none (some "S")
        (fun _ _ => .ok)).errorToast = some "OAuth state verification failed" ∧
    (ConnectionsPage.handleOAuthCallback (some "C") (some "S2") none (some "S")
        (fun _ _ => .ok)).urlCleaned = true := by
  refine ⟨rfl, rfl, rfl, by decide, rfl, rfl, rfl⟩

/-- C2 counterexample: a callback-handling attempt that compares the returned state
(`"S2"`) against the stored value (`"S"`) and fails leaves the stored slot unchanged —
it is **not** cleared on that attempt, contradicting "cleared exactly once regardless of
whether the comparison succeeds or fails". -/
theorem oauthState_not_cleared_on_mismatch :
    (ConnectionsPage.handleOAuthCallback (some "C") (some "S2") none (some "S")
        (fun _ _ => .ok)).storedAfter = some "S" ∧
    (some "S" : Option String) ≠ some "S2" := by
  refine ⟨rfl, by decide⟩

/-- C2 amended: the stored state is cleared exactly once on the attempt whose comparison
succeeds (whatever the exchange outcome), and a second attempt with the same value then
fails verification against the cleared slot; on a mismatching attempt the slot is left
unchanged. -/
theorem oauthState_single_use (c s : String) (stored : Option String)
    (exchange : String → String → ExchangeOutcome) (hc : c ≠ "") (hs : s ≠ "") :
    (stored ≠ some s →
      (ConnectionsPage.handleOAuthCallback (some c) (some s) none stored exchange).storedAfter
          = stored ∧
      (ConnectionsPage.handleOAuthCallback (some c) (some s) none stored
          exchange).exchangeCalled = false) ∧
    (ConnectionsPage.handleOAuthCallback (some c) (some s) none (some s)
        exchange).storedAfter = none ∧
    (ConnectionsPage.handleOAuthCallback (some c) (some s) none
        (ConnectionsPage.handleOAuthCallback (some c) (some s) none (some s)
          exchange).storedAfter exchange).exchangeCalled = false ∧
    (ConnectionsPage.handleOAuthCallback (some c) (some s) none
        (ConnectionsPage.handleOAuthCallback (some c) (some s) none (some s)
          exchange).storedAfter exchange).errorToast
      = some "OAuth state verification failed" := by
  have hct : jsTruthy (some c) = true := by simp [jsTruthy, hc]
  have hst : jsTruthy (some s) = true := by simp [jsTruthy, hs]
  have hmain : (ConnectionsPage.handleOAuthCallback (some c) (some s) none (some s)
      exchange).storedAfter = none := by
    rw [ConnectionsPage.handleOAuthCallback]
    rw [if_neg (by simp [jsTruthy]), if_pos (by simp [hct, hst])]
    rw [if_neg (by simp)]
    cases hx : exchange ((some c).getD "") ((some s).getD "") <;> rfl
  refine ⟨?_, hmain, ?_, ?_⟩
  · intro hne
    rw [ConnectionsPage.handleOAuthCallback]
    rw [if_neg (by simp [jsTruthy]), if_pos (by simp [hct, hst])]
    rw [if_pos (by simpa using hne)]
    exact ⟨rfl, rfl⟩
  · rw [hmain]
    rw [ConnectionsPage.handleOAuthCallback]
    rw [if_neg (by simp [jsTruthy]), if_pos (by simp [hct, hst])]
    rw [if_pos (by simp)]
  · rw [hmain]
    rw [ConnectionsPage.handleOAuthCallback]
    rw [if_neg (by simp [jsTruthy]), if_pos (by simp [hct, hst])]
    rw [if_pos (by simp)]

/-- C2 witness: the amended statement at `code = "C"`, `state = "S"`. -/
theorem oauthState_single_use_witness :
    ((some "OLD" : Option String) ≠ some "S" →
      (ConnectionsPage.handleOAuthCallback (some "C") (some "S") none (some "OLD")
          (fun _ _ => .ok)).storedAfter = some "OLD" ∧
      (ConnectionsPage.handleOAuthCallback (some "C") (some "S") none (some "OLD")
          (fun _ _ => .ok)).exchangeCalled = false) ∧
    (ConnectionsPage.handleOAuthCallback (some "C") (some "S") none (some "S")
        (fun _ _ => .ok)).storedAfter = none ∧
    (ConnectionsPage.handleOAuthCallback (some "C") (some "S") none
        (ConnectionsPage.handleOAuthCallback (some "C") (some "S") none (some "S")
          (fun _ _ => .ok)).storedAfter (fun _ _ => .ok)).exchangeCalled = false ∧
    (ConnectionsPage.handleOAuthCallback (some "C") (some "S") none
        (ConnectionsPage.handleOAuthCallback (some "C") (some "S") none (some "S")
          (fun _ _ => .ok)).storedAfter (fun _ _ => .ok)).errorToast
      = some "OAuth state verification failed" := by
  have h := oauthState_single_use "C" "S" (some "OLD") (fun _ _ => .ok)
    (by decide) (by decide)
  exact h

/-- C3 counterexample: a network failure (rejected `fetch`) does **not** surface as a
raised failure — the method returns `null` as a normal value, because `.catch` stores
the absent `err.detail` and `if (error)` is then false. -/
theorem apiResult_networkError_returns_null :
    apiResult (FetchOutcome.networkError : FetchOutcome Unit) = Except.ok none := rfl

/-- C3 amended: a non-2xx response whose structured body carries a non-empty `detail`
string is re-raised as a failure carrying exactly that string, and a 2xx response is
returned as a normal value; but a non-2xx body without a `detail` and every network
failure produce a normal `null` return instead of a raised failure.  (No retry exists:
each method performs exactly one `fetch`, modelled by `apiResult` consuming exactly one
`FetchOutcome`.) -/
theorem apiResult_error_policy {β : Type} (e : ErrorBody) (d : String) (b : β)
    (hd : e.detail = some d) (hne : d ≠ "") :
    apiResult (FetchOutcome.httpError e : FetchOutcome β) = Except.error d ∧
    apiResult (FetchOutcome.success b) = Except.ok (some b) ∧
    apiResult (FetchOutcome.networkError : FetchOutcome β) = Except.ok none ∧
    (∀ e2 : ErrorBody, e2.detail = none →
      apiResult (FetchOutcome.httpError e2 : FetchOutcome β) = Except.ok none) := by
  refine ⟨?_, rfl, rfl, ?_⟩
  · rw [apiResult, hd]
    simp [hne]
  · intro e2 h2
    rw [apiResult, h2]

/-- C3 witness: the amended statement at a body whose detail is `"boom"`. -/
theorem apiResult_error_policy_witness :
    apiResult (FetchOutcome.httpError ⟨some "boom"⟩ : FetchOutcome Unit)
        = Except.error "boom" ∧
    apiResult (FetchOutcome.success ()) = Except.ok (some ()) ∧
    apiResult (FetchOutcome.networkError : FetchOutcome Unit) = Except.ok none ∧
    (∀ e2 : ErrorBody, e2.detail = none →
      apiResult (FetchOutcome.httpError e2 : FetchOutcome Unit) = Except.ok none) :=
  apiResult_error_policy ⟨some "boom"⟩ "boom" () rfl (by decide)

/-- C4 counterexample: on a paragraph with two text children `"a"` and `"b"`, the code
inserts a newline after **each** child (`"a\nb"`), not one newline after the children as
a whole (`"ab"` per the spec's reading), so the claimed output is not produced. -/
theorem extractTextFromADF_per_child_newline :
    extractTextFromADF (some (.mk (some "doc") none (some [.mk (some "paragraph") none
        (some [.mk none (some "a") none, .mk none (some "b") none])]))) = "a\nb" ∧
    extractTextFromADF_spec (some (.mk (some "doc") none (some [.mk (some "paragraph")
        none (some [.mk none (some "a") none, .mk none (some "b") none])]))) = "ab" ∧
    ("a\nb" : String) ≠ "ab" := by
  refine ⟨by decide, by decide, by decide⟩

/-- C4 amended: extraction concatenates all leaf text in document order with one newline
after each **child** of a paragraph/heading node and trims the result; this coincides
with the claimed one-newline-after-the-children exactly when every paragraph/heading
node carrying content has a single child. -/
theorem extractTextFromADF_eq_spec_of_singleChild (n : ADFNode)
    (h : singleChildPH n = true) :
    extractTextFromADF (some n) = extractTextFromADF_spec (some n) := by
  rcases n with ⟨t, x, c⟩
  rcases c with _ | cs
  · rfl
  · show jsTrim (processNode (.mk t x (some cs)))
        = jsTrim (specProcessNode (.mk t x (some cs)))
    rw [processNode_eq_spec_of_singleChild _ h]

/-- C4 witness: the amended statement on a single-child paragraph document. -/
theorem extractTextFromADF_eq_spec_witness :
    singleChildPH (.mk (some "doc") none (some [.mk (some "paragraph") none
        (some [.mk none (some "hello world") none])])) = true ∧
    extractTextFromADF (some (.mk (some "doc") none (some [.mk (some "paragraph") none
        (some [.mk none (some "hello world") none])])))
      = extractTextFromADF_spec (some (.mk (some "doc") none
        (some [.mk (some "paragraph") none
          (some [.mk none (some "hello world") none])]))) :=
  ⟨by decide, extractTextFromADF_eq_spec_of_singleChild _ (by decide)⟩

/-- C5: `generateAtlassianOAuthURL` is the fixed authorize endpoint followed by the
`URLSearchParams` serialisation of exactly the seven parameters in source order, and
parsing that query string back (splitting on `&`/first `=`, percent-decoding) recovers
exactly those seven key/value pairs with the caller-supplied values intact — so every
value is correctly percent-encoded.  The embedding is a pure function. -/
theorem generateAtlassianOAuthURL_spec (clientId redirectUri scope state : String) :
    generateAtlassianOAuthURL clientId redirectUri scope state
      = "https://auth.atlassian.com/authorize?" ++ urlSearchParamsToString
          [("audience", "api.atlassian.com"), ("client_id", clientId), ("scope", scope),
           ("redirect_uri", redirectUri), ("state", state), ("response_type", "code"),
           ("prompt", "consent")] ∧
    parseQuery (urlSearchParamsToString
          [("audience", "api.atlassian.com"), ("client_id", clientId), ("scope", scope),
           ("redirect_uri", redirectUri), ("state", state), ("response_type", "code"),
           ("prompt", "consent")])
      = [("audience", "api.atlassian.com"), ("client_id", clientId), ("scope", scope),
         ("redirect_uri", redirectUri), ("state", state), ("response_type", "code"),
         ("prompt", "consent")] :=
  ⟨rfl, parseQuery_urlSearchParamsToString _ (by simp)⟩

/-- C5 witness: the statement at concrete values that need escaping. -/
theorem generateAtlassianOAuthURL_spec_witness :
    generateAtlassianOAuthURL "my id" "https://app.example/cb?x=1"
        "read:me read:jira-work" "s1&s2="
      = "https://auth.atlassian.com/authorize?" ++ urlSearchParamsToString
          [("audience", "api.atlassian.com"), ("client_id", "my id"),
           ("scope", "read:me read:jira-work"),
           ("redirect_uri", "https://app.example/cb?x=1"), ("state", "s1&s2="),
           ("response_type", "code"), ("prompt", "consent")] ∧
    parseQuery (urlSearchParamsToString
          [("audience", "api.atlassian.com"), ("client_id", "my id"),
           ("scope", "read:me read:jira-work"),
           ("redirect_uri", "https://app.example/cb?x=1"), ("state", "s1&s2="),
           ("response_type", "code"), ("prompt", "consent")])
      = [("audience", "api.atlassian.com"), ("client_id", "my id"),
         ("scope", "read:me read:jira-work"),
         ("redirect_uri", "https://app.example/cb?x=1"), ("state", "s1&s2="),
         ("response_type", "code"), ("prompt", "consent")] :=
  generateAtlassianOAuthURL_spec "my id" "https://app.example/cb?x=1"
    "read:me read:jira-work" "s1&s2="

/-- C6 counterexample: a fetched issue without a `status` field makes the Jira rendering
throw (reading `.name` of `undefined`) instead of omitting the line — it does not
"succeed without failure when any of these fields is absent". -/
theorem selectItemJira_missing_status_throws :
    selectItemJiraContent ⟨"KEY-1",
        ⟨some "Summary", none, some ⟨some "Task"⟩, none, none, none⟩⟩ = none ∧
    selectItemJiraContent ⟨"KEY-1",
        ⟨some "Summary", some ⟨some "Done"⟩, none, none, none, none⟩⟩ = none := by
  exact ⟨rfl, rfl⟩

/-- C6 amended: the rendered content begins with the heading with issue key and summary;
the assignee and priority lines are included exactly when those fields are present;
status and type lines are always emitted, and rendering succeeds precisely when `status`
and `issuetype` are both present (it throws when either is absent). -/
theorem selectItemJira_renders (issue : JiraIssue) (st it : NamedField)
    (hst : issue.fields.status = some st) (hit : issue.fields.issuetype = some it) :
    selectItemJiraContent issue
      = some (jiraRenderSpec issue.key (jsShow issue.fields.summary) (jsShow st.name)
          (jsShow it.name) (issue.fields.assignee.map fun a => jsShow a.displayName)
          (issue.fields.priority.map fun p => jsShow p.name)
          (jiraDescriptionText issue.fields.description)) := by
  rcases issue with ⟨key, ⟨summary, status, issuetype, assignee, priority, description⟩⟩
  cases hst
  cases hit
  rw [selectItemJiraContent]
  rw [jiraRenderSpec]
  cases assignee <;> cases priority <;>
    simp [Option.elim, Option.map, String.append_assoc]

/-- C6 witness: the amended statement at an issue with assignee present and priority
absent. -/
theorem selectItemJira_renders_witness :
    selectItemJiraContent ⟨"KEY-1",
        ⟨some "Summary", some ⟨some "Done"⟩, some ⟨some "Task"⟩,
          some ⟨some "Ada"⟩, none, some (.str "desc")⟩⟩
      = some (jiraRenderSpec "KEY-1" (jsShow (some "Summary")) (jsShow (some "Done"))
          (jsShow (some "Task"))
          ((some (⟨some "Ada"⟩ : AssigneeField)).map fun a => jsShow a.displayName)
          ((none : Option NamedField).map fun p => jsShow p.name)
          (jiraDescriptionText (some (.str "desc")))) :=
  selectItemJira_renders ⟨"KEY-1", ⟨some "Summary", some ⟨some "Done"⟩, some ⟨some "Task"⟩,
    some ⟨some "Ada"⟩, none, some (.str "desc")⟩⟩ ⟨some "Done"⟩ ⟨some "Task"⟩ rfl rfl

/-- C7 counterexample: a **Jira** search response whose body is `{error: "no_access"}`
leaves the results empty and throws nothing, but does **not** set the no-access UI flag
(the Jira branch never inspects the soft-error marker), so the claim's "for every search
response" fails. -/
theorem performSearch_jira_no_access_flag_not_set :
    performSearch (α := Unit) (σ := Unit) .jira "q" (some ())
        (.ok ⟨some "no_access", none, none⟩) ⟨[], false, false, []⟩
      = ⟨[], false, false, []⟩ := by
  decide

/-- C7 amended: for every **Confluence** search response carrying `{error: "no_access"}`
the results stay empty, the no-access flag is set and nothing is thrown (no error
toast); the space listing degrades to an empty space list with no selected space and no
error toast; a Jira search response with the same body leaves the results empty without
setting the flag. -/
theorem performSearch_no_access {α σ : Type} (q : String) (site : σ)
    (r : SearchResponse α) (st : PickerSearchState α) (sp : SpacesState α)
    (hq : jsTrim q ≠ "") (hr : r.error = some "no_access") :
    performSearch .confluence q (some site) (.ok r) st
      = { st with searchResults := [], noConfluenceAccess := true, loading := false } ∧
    performSearch .jira q (some site) (.ok r) st
      = { st with searchResults := r.issues.getD [], loading := false } ∧
    loadConfluenceSpaces .confluence (some site) (.ok r) sp
      = { sp with
          confluenceSpaces := [], selectedSpace := none, loadingSpaces := false } := by
  refine ⟨?_, ?_, ?_⟩
  · rw [performSearch, if_neg (by simp [hq])]
    simp [hr]
  · rw [performSearch, if_neg (by simp [hq])]
  · rw [loadConfluenceSpaces, if_neg (by simp)]
    simp [hr]

/-- C7 witness: the amended statement at a concrete state and response. -/
theorem performSearch_no_access_witness :
    performSearch (α := Unit) (σ := Unit) .confluence "query" (some ())
        (.ok ⟨some "no_access", none, none⟩) ⟨[()], false, true, []⟩
      = ⟨[], true, false, []⟩ ∧
    performSearch (α := Unit) (σ := Unit) .jira "query" (some ())
        (.ok ⟨some "no_access", none, none⟩) ⟨[()], false, true, []⟩
      = ⟨[], false, false, []⟩ ∧
    loadConfluenceSpaces (α := Unit) (σ := Unit) .confluence (some ())
        (.ok ⟨some "no_access", none, none⟩) ⟨[()], some (), false, []⟩
      = ⟨[], none, false, []⟩ := by
  have h := performSearch_no_access (α := Unit) (σ := Unit) "query" ()
    ⟨some "no_access", none, none⟩ ⟨[()], false, true, []⟩ ⟨[()], some (), false, []⟩
    (by decide) rfl
  exact h

/-- C8: the value generated from the 32 random bytes is their hex encoding — 64
characters, all lowercase hexadecimal — and the byte string is recoverable from it
(so distinct 32-byte draws give distinct states: the full 256 bits of the draw are
preserved); `handleConnect` stores it in the single slot `atlassian_oauth_state` and
only afterwards navigates to the authorization URL built from it. -/
theorem generateOAuthState_spec (clientId redirectUri scope : String) (bytes : List Nat)
    (hcid : clientId ≠ "") (hruri : redirectUri ≠ "") (hlen : bytes.length = 32)
    (hbytes : ∀ b ∈ bytes, b < 256) :
    (generateOAuthState bytes).length = 64 ∧
    (∀ c ∈ (generateOAuthState bytes).data, c ∈ ("0123456789abcdef").data) ∧
    hexPairsToBytes (generateOAuthState bytes).data = bytes ∧
    handleConnect clientId redirectUri scope bytes
      = [.setItem "atlassian_oauth_state" (generateOAuthState bytes),
         .navigate (generateAtlassianOAuthURL clientId redirectUri scope
           (generateOAuthState bytes))] := by
  obtain ⟨hl, hdec, hhex⟩ := generateOAuthState_byte_facts bytes hbytes
  refine ⟨?_, hhex, hdec, ?_⟩
  · show (generateOAuthState bytes).data.length = 64
    rw [hl, hlen]
  · rw [handleConnect, if_neg (by simp [hcid, hruri])]

/-- C8 witness: the statement at a concrete 32-byte draw. -/
theorem generateOAuthState_spec_witness :
    (generateOAuthState (List.replicate 16 0 ++ List.replicate 16 255)).length = 64 ∧
    (∀ c ∈ (generateOAuthState (List.replicate 16 0 ++ List.replicate 16 255)).data,
      c ∈ ("0123456789abcdef").data) ∧
    hexPairsToBytes (generateOAuthState (List.replicate 16 0
        ++ List.replicate 16 255)).data
      = List.replicate 16 0 ++ List.replicate 16 255 ∧
    handleConnect "cid" "https://app/cb" "read:me"
        (List.replicate 16 0 ++ List.replicate 16 255)
      = [.setItem "atlassian_oauth_state"
           (generateOAuthState (List.replicate 16 0 ++ List.replicate 16 255)),
         .navigate (generateAtlassianOAuthURL "cid" "https://app/cb" "read:me"
           (generateOAuthState (List.replicate 16 0 ++ List.replicate 16 255)))] :=
  generateOAuthState_spec "cid" "https://app/cb" "read:me"
    (List.replicate 16 0 ++ List.replicate 16 255) (by decide) (by decide) (by decide)
    (by decide)

/-- C9: Confluence body rendering strips markup tags and decodes exactly the four named
entities: `"<p>A &amp; B</p>"` renders as `"A & B"` under the page heading; a page with
no body renders the fallback notice; unrelated entities such as `&quot;` are left
untouched while the four named ones become space, `&`, `<`, `>`. -/
theorem selectItemConfluence_strips_and_decodes :
    selectItemConfluenceContent (fun d => d)
        ⟨"1", some "T", none, none, some ⟨some ⟨some "<p>A &amp; B</p>"⟩, none⟩⟩
      = "## T\n\nA & B" ∧
    selectItemConfluenceContent (fun d => d) ⟨"1", some "T", none, none, none⟩
      = "## T\n\nNo content available" ∧
    cleanConfluenceBody "<p>A &amp; B</p>" = "A & B" ∧
    cleanConfluenceBody "<ul><li>x&nbsp;&lt;y&gt;&quot;</li></ul>" = "x <y>&quot;" := by
  refine ⟨by decide, by decide, by decide, by decide⟩

/-- C10: for `null`/`undefined` input and for any node whose `content` field is absent,
`extractTextFromADF` returns the empty string; correspondingly the Jira description
defaulting never fails — an absent description and a malformed structured description
(no `content`) both fall back to "No description". -/
theorem extractTextFromADF_defensive (t x : Option String) :
    extractTextFromADF none = "" ∧
    extractTextFromADF (some (.mk t x none)) = "" ∧
    jiraDescriptionText none = "No description" ∧
    jiraDescriptionText (some (.adf (.mk t x none))) = "No description" :=
  ⟨rfl, rfl, rfl, rfl⟩

/-- C10 witness: the statement at a node with `type` and `text` but no `content`. -/
theorem extractTextFromADF_defensive_witness :
    extractTextFromADF none = "" ∧
    extractTextFromADF (some (.mk (some "paragraph") (some "orphan") none)) = "" ∧
    jiraDescriptionText none = "No description" ∧
    jiraDescriptionText (some (.adf (.mk (some "paragraph") (some "orphan") none)))
      = "No description" :=
  extractTextFromADF_defensive (some "paragraph") (some "orphan")

end Atlassian
